import Mathlib

set_option autoImplicit false

/-!
Verification of the syncx concurrency-primitives library against its
specification.  The repository ships only the test suite and benchmark
harnesses; the library itself (syncx.dict, syncx.collections, syncx.locks)
is absent, so the data structures below are modelled from the spec
(sections 3, 4 and 7 of spec.md), with every behaviour that the shipped
tests pin down taken from those tests.  All claims are settled against a
linearized (sequential, per-operation-atomic) semantics: each public
operation is a function from the pre-state to a result plus a post-state,
which is the observable contract of the lock-protected implementation the
spec describes.
-/

namespace Syncx

/-- Modelled from the spec: a Python object used as a key, value or queue
item.  Only two observable attributes matter for the contracts under
verification: an identity (distinguishing objects) and whether the object
is usable as a hash key (spec section 4.4, hash validation; a mutable
sequence is the canonical non-hashable example). -/
structure PyObj where
  oid : Nat
  hashable : Bool
deriving DecidableEq

/-- Modelled from the spec: the error taxonomy of section 7 of spec.md.
The tests surface these as KeyError, TypeError, Full and Empty. -/
inductive SyncxError where
  | missingKey
  | unhashableKey
  | full
  | empty
  | usage
deriving DecidableEq

/-- Modelled from the spec: every key-bearing operation first attempts to
compute the hash of the key, failing with UnhashableKeyError before any
shard is touched or mutated (spec section 4.4). -/
def hashCheck (k : PyObj) : Except SyncxError Unit :=
  if k.hashable then .ok () else .error .unhashableKey

/-! Association-list helpers giving the logical contents of one map.
Sharding (spec section 3) only affects internal locking; under the
linearized semantics the observable contents are a single key-value
sequence. -/

/-- Find the value stored for a key, if any. -/
def lookupEntry : List (PyObj × PyObj) → PyObj → Option PyObj
  | [], _ => none
  | (k2, v2) :: rest, k => if k2 = k then some v2 else lookupEntry rest k

/-- Insert-or-overwrite for a key-value sequence. -/
def setEntry : List (PyObj × PyObj) → PyObj → PyObj → List (PyObj × PyObj)
  | [], k, v => [(k, v)]
  | (k2, v2) :: rest, k, v =>
    if k2 = k then (k, v) :: rest else (k2, v2) :: setEntry rest k v

/-- Remove the entry for a key, if present. -/
def removeEntry : List (PyObj × PyObj) → PyObj → List (PyObj × PyObj)
  | [], _ => []
  | (k2, v2) :: rest, k => if k2 = k then rest else (k2, v2) :: removeEntry rest k

/-- Modelled from the spec: the logical contents of a ShardedConcurrentMap
(ConcurrentDict in the tests).  The per-shard locks and counters of spec
section 3 are invisible under the linearized semantics; total size is the
length of the entry sequence. -/
structure ConcurrentDict where
  entries : List (PyObj × PyObj)
deriving DecidableEq

namespace ConcurrentDict

/-- Size of the map, as reported by len. -/
def size (d : ConcurrentDict) : Nat := d.entries.length

/-- Logical lookup used to state specifications. -/
def lookup (d : ConcurrentDict) (k : PyObj) : Option PyObj :=
  lookupEntry d.entries k

/-- Modelled from the spec: subscript assignment, an unconditional
insert-or-overwrite after hash validation (spec sections 4.4).  Returns
the result together with the post-state; on error the map is unchanged. -/
def setItem (d : ConcurrentDict) (k v : PyObj) :
    Except SyncxError Unit × ConcurrentDict :=
  match hashCheck k with
  | .error e => (.error e, d)
  | .ok _ => (.ok (), ⟨setEntry d.entries k v⟩)

/-- Modelled from the spec and pinned by test_basic_kv_operations: the
subscript lookup fails with MissingKeyError (KeyError) when the key is
absent. -/
def getItem (d : ConcurrentDict) (k : PyObj) : Except SyncxError PyObj :=
  match hashCheck k with
  | .error e => .error e
  | .ok _ =>
    match d.lookup k with
    | some v => .ok v
    | none => .error .missingKey

/-- Pinned by test_get_and_defaults: the one-argument get returns None
(modelled as Option.none) when the key is absent, after hash validation
(test_unhashable_key_raises shows get also validates the key). -/
def get (d : ConcurrentDict) (k : PyObj) : Except SyncxError (Option PyObj) :=
  match hashCheck k with
  | .error e => .error e
  | .ok _ => .ok (d.lookup k)

/-- Pinned by test_get_and_defaults: the two-argument get returns the
default instead of failing when the key is absent. -/
def getD (d : ConcurrentDict) (k dflt : PyObj) : Except SyncxError PyObj :=
  match hashCheck k with
  | .error e => .error e
  | .ok _ => .ok ((d.lookup k).getD dflt)

/-- Membership test after hash validation. -/
def contains (d : ConcurrentDict) (k : PyObj) : Except SyncxError Bool :=
  match hashCheck k with
  | .error e => .error e
  | .ok _ => .ok (d.lookup k).isSome

/-- Modelled from the spec: delete removes and fails with MissingKeyError
when absent (spec section 4.4); on error the map is unchanged. -/
def delItem (d : ConcurrentDict) (k : PyObj) :
    Except SyncxError Unit × ConcurrentDict :=
  match hashCheck k with
  | .error e => (.error e, d)
  | .ok _ =>
    match d.lookup k with
    | some _ => (.ok (), ⟨removeEntry d.entries k⟩)
    | none => (.error .missingKey, d)

/-- Modelled from the spec: strict pop removes and returns the value,
failing with MissingKeyError when absent with no default supplied. -/
def pop (d : ConcurrentDict) (k : PyObj) :
    Except SyncxError PyObj × ConcurrentDict :=
  match hashCheck k with
  | .error e => (.error e, d)
  | .ok _ =>
    match d.lookup k with
    | some v => (.ok v, ⟨removeEntry d.entries k⟩)
    | none => (.error .missingKey, d)

/-- Modelled from the spec: pop with a default never fails on an absent
key and leaves the map unchanged in that case. -/
def popD (d : ConcurrentDict) (k dflt : PyObj) :
    Except SyncxError PyObj × ConcurrentDict :=
  match hashCheck k with
  | .error e => (.error e, d)
  | .ok _ =>
    match d.lookup k with
    | some v => (.ok v, ⟨removeEntry d.entries k⟩)
    | none => (.ok dflt, d)

/-- Modelled from the spec: setdefault atomically inserts the default and
returns it when the key is absent, and returns the existing value leaving
the map unchanged when present (spec section 4.4). -/
def setdefault (d : ConcurrentDict) (k dflt : PyObj) :
    Except SyncxError PyObj × ConcurrentDict :=
  match hashCheck k with
  | .error e => (.error e, d)
  | .ok _ =>
    match d.lookup k with
    | some v => (.ok v, d)
    | none => (.ok dflt, ⟨setEntry d.entries k dflt⟩)

/-- Modelled from the spec: clear empties every shard. -/
def clear (_d : ConcurrentDict) : ConcurrentDict := ⟨[]⟩

/-- Modelled from the spec: a snapshot (copy, or pickle round trip) is a
brand-new structure holding exactly the entries of the source at the
capture instant and sharing no state with it (spec sections 3 and 6). -/
def copy (d : ConcurrentDict) : ConcurrentDict := ⟨d.entries⟩

end ConcurrentDict

/-- Modelled from the spec: the logical contents of a ConcurrentSet, the
sharded map specialized to presence-only entries (spec section 4.5). -/
structure ConcurrentSet where
  elems : List PyObj
deriving DecidableEq

namespace ConcurrentSet

/-- Size of the set, as reported by len. -/
def size (s : ConcurrentSet) : Nat := s.elems.length

/-- Modelled from the spec: add is an idempotent insert after hash
validation; no error and no effect when the value is already present. -/
def add (s : ConcurrentSet) (v : PyObj) :
    Except SyncxError Unit × ConcurrentSet :=
  match hashCheck v with
  | .error e => (.error e, s)
  | .ok _ =>
    if v ∈ s.elems then (.ok (), s) else (.ok (), ⟨s.elems ++ [v]⟩)

/-- Membership test after hash validation. -/
def contains (s : ConcurrentSet) (v : PyObj) : Except SyncxError Bool :=
  match hashCheck v with
  | .error e => .error e
  | .ok _ => .ok (decide (v ∈ s.elems))

/-- Modelled from the spec: remove fails with MissingKeyError when the
value is absent; on error the set is unchanged. -/
def remove (s : ConcurrentSet) (v : PyObj) :
    Except SyncxError Unit × ConcurrentSet :=
  match hashCheck v with
  | .error e => (.error e, s)
  | .ok _ =>
    if v ∈ s.elems then (.ok (), ⟨s.elems.erase v⟩)
    else (.error .missingKey, s)

/-- Modelled from the spec: discard removes if present and is a no-op,
never failing, when absent. -/
def discard (s : ConcurrentSet) (v : PyObj) :
    Except SyncxError Unit × ConcurrentSet :=
  match hashCheck v with
  | .error e => (.error e, s)
  | .ok _ => (.ok (), ⟨s.elems.erase v⟩)

/-- Modelled from the spec: clear empties every shard. -/
def clear (_s : ConcurrentSet) : ConcurrentSet := ⟨[]⟩

/-- Modelled from the spec: copy produces a live, independently mutable
structure with the same isolation guarantee as a map snapshot. -/
def copy (s : ConcurrentSet) : ConcurrentSet := ⟨s.elems⟩

end ConcurrentSet

/-- Modelled from the spec: a BoundedBlockingQueue is an ordered sequence
of items with a capacity; maxsize 0 means unbounded (spec sections 3 and
4.6). -/
structure Queue (α : Type) where
  maxsize : Nat
  items : List α
deriving DecidableEq

namespace Queue

/-- Number of enqueued items, as reported by qsize. -/
def qsize {α : Type} (q : Queue α) : Nat := q.items.length

/-- Advisory point-in-time emptiness query. -/
def isEmpty {α : Type} (q : Queue α) : Bool := q.items.isEmpty

/-- Advisory point-in-time fullness query; a queue with maxsize 0 is
unbounded and never full. -/
def isFull {α : Type} (q : Queue α) : Bool :=
  decide (0 < q.maxsize) && decide (q.maxsize ≤ q.items.length)

/-- Modelled from the spec: non-blocking put fails immediately with
FullError when the queue is full, without mutating it; otherwise the item
is enqueued at the tail. -/
def putNowait {α : Type} (q : Queue α) (x : α) :
    Except SyncxError Unit × Queue α :=
  if q.isFull then (.error .full, q)
  else (.ok (), { q with items := q.items ++ [x] })

/-- Modelled from the spec: non-blocking get fails immediately with
EmptyError when the queue is empty, without mutating it; otherwise the
head item is dequeued. -/
def getNowait {α : Type} (q : Queue α) :
    Except SyncxError α × Queue α :=
  match q.items with
  | [] => (.error .empty, q)
  | v :: rest => (.ok v, { q with items := rest })

/-- Modelled from the spec: blocking put; the none result means the
calling thread blocks awaiting a consumer (no mutation yet), which under
the linearized semantics never happens on a non-full queue. -/
def put {α : Type} (q : Queue α) (x : α) : Option (Queue α) :=
  if q.isFull then none else some { q with items := q.items ++ [x] }

/-- Modelled from the spec: blocking get; the none result means the
calling thread blocks awaiting a producer. -/
def get {α : Type} (q : Queue α) : Option (α × Queue α) :=
  match q.items with
  | [] => none
  | v :: rest => some (v, { q with items := rest })

/-- Modelled from the spec: timed put gives up after the timeout and fails
with FullError without mutating the queue (spec sections 4.6 and 5).
Under the linearized semantics no consumer runs during the wait, so a put
on a full queue always times out. -/
def putTimeout {α : Type} (q : Queue α) (x : α) :
    Except SyncxError Unit × Queue α :=
  q.putNowait x

/-- Modelled from the spec: timed get gives up after the timeout and fails
with EmptyError without mutating the queue; under the linearized
semantics no producer runs during the wait. -/
def getTimeout {α : Type} (q : Queue α) :
    Except SyncxError α × Queue α :=
  q.getNowait

end Queue

/-- One step of an interleaved put/get history against a queue.  Each
constructor is the linearization point of one public operation. -/
inductive QOp (α : Type) where
  | enqueue (x : α)
  | dequeue

/-- A queue together with the history of successfully enqueued and
successfully dequeued items, in order. -/
structure QTrace (α : Type) where
  queue : Queue α
  enq : List α
  deq : List α

/-- Run one operation against the trace: a failed put or get leaves the
queue unchanged and records nothing (spec section 7, atomicity of failing
operations). -/
def qstep {α : Type} (t : QTrace α) : QOp α → QTrace α
  | .enqueue x =>
    match t.queue.putNowait x with
    | (.ok _, q2) => ⟨q2, t.enq ++ [x], t.deq⟩
    | (.error _, _) => t
  | .dequeue =>
    match t.queue.getNowait with
    | (.ok v, q2) => ⟨q2, t.enq, t.deq ++ [v]⟩
    | (.error _, _) => t

/-- Run a whole interleaved history from an initially empty queue of the
given capacity. -/
def runQueue {α : Type} (cap : Nat) (ops : List (QOp α)) : QTrace α :=
  ops.foldl qstep ⟨⟨cap, []⟩, [], []⟩

/-- Modelled from the spec: a single-use Guard capability (spec section
3); the released flag records whether the single permitted release has
already happened. -/
structure Guard where
  released : Bool
deriving DecidableEq

/-- Modelled from the spec: a Mutex is Unlocked or Locked, with no owner
tracking (spec section 3).  The tests name this type Lock. -/
structure Mutex where
  locked : Bool
deriving DecidableEq

namespace Mutex

/-- Advisory point-in-time query. -/
def isLocked (m : Mutex) : Bool := m.locked

/-- Modelled from the spec: try_acquire attempts the transition
non-blockingly, returning a fresh Guard or an absent result immediately,
leaving the state unchanged on failure. -/
def tryAcquire (m : Mutex) : Option Guard × Mutex :=
  if m.locked then (none, m) else (some ⟨false⟩, ⟨true⟩)

/-- Modelled from the spec: acquire blocks until Unlocked then transitions
to Locked and returns a Guard; the none result means the calling thread
blocks, which from an Unlocked state never happens. -/
def acquire (m : Mutex) : Option Guard × Mutex :=
  m.tryAcquire

/-- Modelled from the spec: releasing a Guard transitions Locked to
Unlocked; a second release of the same Guard fails with a usage error. -/
def release (g : Guard) (m : Mutex) : Except SyncxError (Guard × Mutex) :=
  if g.released then .error .usage else .ok (⟨true⟩, { m with locked := false })

end Mutex

/-- Modelled from the spec: ReadWriteLock state, reader count, writer
flag and the count of waiting writers that gates new readers (spec
section 3). -/
structure RWLock where
  readers : Nat
  writerActive : Bool
  waitingWriters : Nat
deriving DecidableEq

namespace RWLock

/-- Advisory query used by the tests: the lock is held iff a reader or a
writer currently holds it. -/
def isLocked (l : RWLock) : Bool :=
  decide (0 < l.readers) || l.writerActive

/-- Modelled from the spec: non-blocking read acquisition fails
immediately while a writer is active or any writer is waiting
(writer-preference admission, spec section 4.3). -/
def tryAcquireRead (l : RWLock) : Option RWLock :=
  if l.writerActive || decide (0 < l.waitingWriters) then none
  else some { l with readers := l.readers + 1 }

/-- Modelled from the spec: non-blocking write acquisition fails
immediately while any reader is active or a writer is active. -/
def tryAcquireWrite (l : RWLock) : Option RWLock :=
  if decide (0 < l.readers) || l.writerActive then none
  else some { l with writerActive := true }

/-- Modelled from the spec: release_read decrements the reader count. -/
def releaseRead (l : RWLock) : RWLock :=
  { l with readers := l.readers - 1 }

/-- Modelled from the spec: release_write clears the writer flag. -/
def releaseWrite (l : RWLock) : RWLock :=
  { l with writerActive := false }

/-- Modelled from the spec: a blocked acquire_write first registers as a
waiting writer (spec section 4.3); this is that registration step. -/
def writerArrive (l : RWLock) : RWLock :=
  { l with waitingWriters := l.waitingWriters + 1 }

/-- Modelled from the spec: a waiting writer proceeds once no reader and
no writer is active, leaving the wait set and becoming active; otherwise
it keeps waiting and the state is unchanged. -/
def writerEnter (l : RWLock) : RWLock :=
  if decide (0 < l.readers) || l.writerActive then l
  else if 0 < l.waitingWriters then
    { l with waitingWriters := l.waitingWriters - 1, writerActive := true }
  else l

end RWLock

/-- The operations of the ReadWriteLock protocol, as linearization
steps; a failed non-blocking acquisition leaves the state unchanged. -/
inductive RWOp where
  | tryRead
  | tryWrite
  | relRead
  | relWrite
  | arrive
  | enter

/-- One protocol step. -/
def rwStep (l : RWLock) : RWOp → RWLock
  | .tryRead => (l.tryAcquireRead).getD l
  | .tryWrite => (l.tryAcquireWrite).getD l
  | .relRead => l.releaseRead
  | .relWrite => l.releaseWrite
  | .arrive => l.writerArrive
  | .enter => l.writerEnter

/-- The safety predicate of spec section 3: never a reader and an active
writer at the same time. -/
def rwInv (l : RWLock) : Prop :=
  ¬(0 < l.readers ∧ l.writerActive = true)

instance rwInvDecidable (l : RWLock) : Decidable (rwInv l) := by
  unfold rwInv; infer_instance

/-! Store model for snapshot independence.  Structures live at indices of
a list-shaped store; a mutation targets one index and rewrites only the
structure stored there, which is how sharing no state is expressed. -/

/-- Apply a mutation to the structure at index i of the store, leaving
every other index untouched. -/
def storeMutate {σ μ : Type} (dflt : σ) (appl : σ → μ → σ)
    (s : List σ) (i : Nat) (m : μ) : List σ :=
  s.set i (appl (s.getD i dflt) m)

/-- Apply a whole sequence of mutations, all targeting index i. -/
def storeRun {σ μ : Type} (dflt : σ) (appl : σ → μ → σ)
    (i : Nat) (s : List σ) (ms : List μ) : List σ :=
  ms.foldl (fun st m => storeMutate dflt appl st i m) s

/-- The mutating operations of a ConcurrentDict. -/
inductive DictMutation where
  | setK (k v : PyObj)
  | delK (k : PyObj)
  | popK (k : PyObj)
  | setdefaultK (k v : PyObj)
  | clearD

/-- Post-state of one dict mutation (results are discarded; a failing
operation leaves the structure unchanged). -/
def applyDictMutation (d : ConcurrentDict) : DictMutation → ConcurrentDict
  | .setK k v => (d.setItem k v).2
  | .delK k => (d.delItem k).2
  | .popK k => (d.pop k).2
  | .setdefaultK k v => (d.setdefault k v).2
  | .clearD => d.clear

/-- The mutating operations of a ConcurrentSet. -/
inductive SetMutation where
  | addV (v : PyObj)
  | removeV (v : PyObj)
  | discardV (v : PyObj)
  | clearS

/-- Post-state of one set mutation. -/
def applySetMutation (s : ConcurrentSet) : SetMutation → ConcurrentSet
  | .addV v => (s.add v).2
  | .removeV v => (s.remove v).2
  | .discardV v => (s.discard v).2
  | .clearS => s.clear

/-- The empty dict, used as the store default. -/
def dictDefault : ConcurrentDict := ⟨[]⟩

/-- The empty set, used as the store default. -/
def setDefault : ConcurrentSet := ⟨[]⟩

/-- A concrete hashable object, used to instantiate contracts. -/
def objA : PyObj := ⟨0, true⟩

/-- A second concrete hashable object. -/
def objB : PyObj := ⟨1, true⟩

/-- A third concrete hashable object. -/
def objC : PyObj := ⟨2, true⟩

/-- A concrete non-hashable object, standing for a mutable sequence. -/
def objBad : PyObj := ⟨3, false⟩

/-! Helper lemmas about the association-list primitives. -/

theorem lookupEntry_eq_none (l : List (PyObj × PyObj)) (k : PyObj) :
    lookupEntry l k = none ↔ k ∉ l.map Prod.fst := by
  induction l with
  | nil => simp [lookupEntry]
  | cons e rest ih =>
    obtain ⟨k2, v2⟩ := e
    by_cases h : k2 = k
    · subst h
      simp [lookupEntry]
    · simp [lookupEntry, h, ih, Ne.symm h]

theorem setEntry_eq_append (l : List (PyObj × PyObj)) (k v : PyObj)
    (h : lookupEntry l k = none) : setEntry l k v = l ++ [(k, v)] := by
  induction l with
  | nil => rfl
  | cons e rest ih =>
    obtain ⟨k2, v2⟩ := e
    by_cases hk : k2 = k
    · simp [lookupEntry, hk] at h
    · simp only [lookupEntry, hk, if_false] at h
      simp [setEntry, hk, ih h]

theorem lookupEntry_setEntry_self (l : List (PyObj × PyObj)) (k v : PyObj) :
    lookupEntry (setEntry l k v) k = some v := by
  induction l with
  | nil => simp [setEntry, lookupEntry]
  | cons e rest ih =>
    obtain ⟨k2, v2⟩ := e
    by_cases hk : k2 = k
    · simp [setEntry, hk, lookupEntry]
    · simp [setEntry, hk, lookupEntry, ih]

theorem mem_keys_of_lookupEntry_some (l : List (PyObj × PyObj)) (k v : PyObj)
    (h : lookupEntry l k = some v) : k ∈ l.map Prod.fst := by
  by_contra hmem
  rw [(lookupEntry_eq_none l k).mpr hmem] at h
  cases h

/-- C1 counterexample: on the empty dict and a hashable key, the
one-argument get returns ok-none (Python None) and does not fail with
MissingKeyError, contradicting the claim that the one-argument get is the
strict form. -/
theorem get_absent_returns_none :
    ConcurrentDict.get dictDefault objA = .ok none ∧
    ConcurrentDict.get dictDefault objA ≠ .error .missingKey := by
  refine ⟨rfl, ?_⟩
  intro hcontra
  exact Except.noConfusion hcontra

/-- C1 amended: for every hashable key absent from a ConcurrentDict, the
subscript lookup (the strict form) fails with MissingKeyError, the
one-argument get returns None rather than failing, and the two-argument
get returns the supplied default; none of these mutate the map (they are
pure observations of the pre-state). -/
theorem lookup_contract (d : ConcurrentDict) (k dflt : PyObj)
    (hk : k.hashable = true) (habs : d.lookup k = none) :
    d.getItem k = .error .missingKey ∧
    d.get k = .ok none ∧
    d.getD k dflt = .ok dflt := by
  simp [ConcurrentDict.getItem, ConcurrentDict.get, ConcurrentDict.getD,
    hashCheck, hk, habs]

/-- Witness instantiating the amended lookup contract on the empty dict. -/
theorem lookup_contract_witness :
    ConcurrentDict.getItem dictDefault objA = .error .missingKey ∧
    ConcurrentDict.get dictDefault objA = .ok none ∧
    ConcurrentDict.getD dictDefault objA objB = .ok objB :=
  lookup_contract dictDefault objA objB rfl rfl

/-- C6: setdefault on an absent key inserts the default and returns it;
on a present key it returns the stored value and leaves the map
unchanged; two consecutive calls return the same value, leave the map of
the first call unchanged, and the resulting map holds exactly one entry
for the key. -/
theorem setdefault_contract (d : ConcurrentDict) (k dflt : PyObj)
    (hk : k.hashable = true) (hnd : (d.entries.map Prod.fst).Nodup) :
    (d.lookup k = none →
      d.setdefault k dflt = (.ok dflt, ⟨d.entries ++ [(k, dflt)]⟩)) ∧
    (∀ v, d.lookup k = some v → d.setdefault k dflt = (.ok v, d)) ∧
    ((d.setdefault k dflt).2.setdefault k dflt).1 = (d.setdefault k dflt).1 ∧
    ((d.setdefault k dflt).2.setdefault k dflt).2 = (d.setdefault k dflt).2 ∧
    ((d.setdefault k dflt).2.entries.map Prod.fst).count k = 1 := by
  cases hl : d.lookup k with
  | none =>
    have hset : setEntry d.entries k dflt = d.entries ++ [(k, dflt)] :=
      setEntry_eq_append d.entries k dflt hl
    have hfirst : d.setdefault k dflt = (.ok dflt, ⟨d.entries ++ [(k, dflt)]⟩) := by
      simp [ConcurrentDict.setdefault, hashCheck, hk, hl, hset]
    have hlook2 : (ConcurrentDict.mk (d.entries ++ [(k, dflt)])).lookup k = some dflt := by
      show lookupEntry (d.entries ++ [(k, dflt)]) k = some dflt
      rw [← hset]
      exact lookupEntry_setEntry_self d.entries k dflt
    have hsecond : (ConcurrentDict.mk (d.entries ++ [(k, dflt)])).setdefault k dflt =
        (.ok dflt, ⟨d.entries ++ [(k, dflt)]⟩) := by
      simp [ConcurrentDict.setdefault, hashCheck, hk, hlook2]
    have hcnt : ((d.entries ++ [(k, dflt)]).map Prod.fst).count k = 1 := by
      have habs : k ∉ d.entries.map Prod.fst := (lookupEntry_eq_none d.entries k).mp hl
      simp [List.count_append, List.count_eq_zero.mpr habs]
    refine ⟨fun _ => hfirst, ?_, ?_, ?_, ?_⟩
    · intro v hv
      cases hv
    · rw [hfirst, hsecond]
    · rw [hfirst, hsecond]
    · rw [hfirst]
      exact hcnt
  | some v =>
    have hfirst : d.setdefault k dflt = (.ok v, d) := by
      simp [ConcurrentDict.setdefault, hashCheck, hk, hl]
    have hcnt : (d.entries.map Prod.fst).count k = 1 :=
      List.count_eq_one_of_mem hnd (mem_keys_of_lookupEntry_some d.entries k v hl)
    refine ⟨?_, ?_, ?_, ?_, ?_⟩
    · intro habs
      cases habs
    · intro w hw
      cases hw
      exact hfirst
    · rw [hfirst, hfirst]
    · rw [hfirst, hfirst]
    · rw [hfirst]
      exact hcnt

/-- Witness instantiating the setdefault contract on the empty dict. -/
theorem setdefault_contract_witness :
    (dictDefault.lookup objA = none →
      dictDefault.setdefault objA objB = (.ok objB, ⟨dictDefault.entries ++ [(objA, objB)]⟩)) ∧
    (∀ v, dictDefault.lookup objA = some v →
      dictDefault.setdefault objA objB = (.ok v, dictDefault)) ∧
    ((dictDefault.setdefault objA objB).2.setdefault objA objB).1 =
      (dictDefault.setdefault objA objB).1 ∧
    ((dictDefault.setdefault objA objB).2.setdefault objA objB).2 =
      (dictDefault.setdefault objA objB).2 ∧
    ((dictDefault.setdefault objA objB).2.entries.map Prod.fst).count objA = 1 :=
  setdefault_contract dictDefault objA objB rfl (by simp [dictDefault])

/-- C7: every key-bearing ConcurrentDict and ConcurrentSet operation
rejects a non-hashable key or value with UnhashableKeyError, returning
the structure exactly as it was before the call, size included. -/
theorem unhashable_key_rejected (d : ConcurrentDict) (s : ConcurrentSet)
    (k v dflt : PyObj) (hk : k.hashable = false) :
    d.setItem k v = (.error .unhashableKey, d) ∧
    d.getItem k = .error .unhashableKey ∧
    d.get k = .error .unhashableKey ∧
    d.getD k dflt = .error .unhashableKey ∧
    d.pop k = (.error .unhashableKey, d) ∧
    d.contains k = .error .unhashableKey ∧
    s.add k = (.error .unhashableKey, s) ∧
    s.remove k = (.error .unhashableKey, s) ∧
    s.contains k = .error .unhashableKey ∧
    (d.setItem k v).2.size = d.size ∧
    ((s.add k).2).size = s.size := by
  simp [ConcurrentDict.setItem, ConcurrentDict.getItem, ConcurrentDict.get,
    ConcurrentDict.getD, ConcurrentDict.pop, ConcurrentDict.contains,
    ConcurrentSet.add, ConcurrentSet.remove, ConcurrentSet.contains,
    hashCheck, hk]

/-- Witness instantiating the unhashable rejection contract. -/
theorem unhashable_key_rejected_witness :
    dictDefault.setItem objBad objA = (.error .unhashableKey, dictDefault) ∧
    dictDefault.getItem objBad = .error .unhashableKey ∧
    dictDefault.get objBad = .error .unhashableKey ∧
    dictDefault.getD objBad objB = .error .unhashableKey ∧
    dictDefault.pop objBad = (.error .unhashableKey, dictDefault) ∧
    dictDefault.contains objBad = .error .unhashableKey ∧
    setDefault.add objBad = (.error .unhashableKey, setDefault) ∧
    setDefault.remove objBad = (.error .unhashableKey, setDefault) ∧
    setDefault.contains objBad = .error .unhashableKey ∧
    (dictDefault.setItem objBad objA).2.size = dictDefault.size ∧
    ((setDefault.add objBad).2).size = setDefault.size :=
  unhashable_key_rejected dictDefault setDefault objBad objA objB rfl

/-- C9: adding a value to a ConcurrentSet succeeds without error, a
second add of the same value returns success and leaves the set exactly
as after the first add, the value is present, and it is counted exactly
once by len. -/
theorem add_idempotent (s : ConcurrentSet) (v : PyObj)
    (hv : v.hashable = true) (hnd : s.elems.Nodup) :
    (s.add v).1 = .ok () ∧
    ((s.add v).2).add v = (.ok (), (s.add v).2) ∧
    v ∈ ((s.add v).2).elems ∧
    ((s.add v).2).elems.count v = 1 ∧
    ((s.add v).2).elems.Nodup := by
  by_cases hm : v ∈ s.elems
  · have hadd : s.add v = (.ok (), s) := by
      simp [ConcurrentSet.add, hashCheck, hv, hm]
    rw [hadd]
    exact ⟨rfl, hadd, hm, List.count_eq_one_of_mem hnd hm, hnd⟩
  · have hadd : s.add v = (.ok (), ⟨s.elems ++ [v]⟩) := by
      simp [ConcurrentSet.add, hashCheck, hv, hm]
    have hm2 : v ∈ s.elems ++ [v] := by simp
    have hadd2 : (ConcurrentSet.mk (s.elems ++ [v])).add v =
        (.ok (), ⟨s.elems ++ [v]⟩) := by
      simp [ConcurrentSet.add, hashCheck, hv]
    have hnd2 : (s.elems ++ [v]).Nodup := by
      simp [List.nodup_append, hnd, hm]
    rw [hadd]
    refine ⟨rfl, hadd2, hm2, ?_, hnd2⟩
    simp [List.count_append, List.count_eq_zero.mpr hm]

/-- Witness instantiating the idempotent-add contract on the empty set. -/
theorem add_idempotent_witness :
    (setDefault.add objA).1 = .ok () ∧
    ((setDefault.add objA).2).add objA = (.ok (), (setDefault.add objA).2) ∧
    objA ∈ ((setDefault.add objA).2).elems ∧
    ((setDefault.add objA).2).elems.count objA = 1 ∧
    ((setDefault.add objA).2).elems.Nodup :=
  add_idempotent setDefault objA rfl (by simp [setDefault])

/-- C3: a timed-out put on a full queue of positive capacity fails with
FullError and returns the queue with its contents exactly as before the
call; a timed-out get on an empty queue fails with EmptyError and leaves
the queue unchanged. -/
theorem queue_timeout_unchanged (q : Queue PyObj) (x : PyObj)
    (_hcap : 0 < q.maxsize) (hfull : q.isFull = true) :
    q.putTimeout x = (.error .full, q) ∧
    (∀ q2 : Queue PyObj, q2.items = [] → q2.getTimeout = (.error .empty, q2)) := by
  constructor
  · simp [Queue.putTimeout, Queue.putNowait, hfull]
  · intro q2 h2
    obtain ⟨ms, its⟩ := q2
    simp only at h2
    subst h2
    rfl

/-- Witness instantiating the timeout contract on a full and on an empty
queue of capacity one. -/
theorem queue_timeout_unchanged_witness :
    (Queue.mk 1 [objA] : Queue PyObj).putTimeout objB =
      (.error .full, Queue.mk 1 [objA]) ∧
    (Queue.mk 1 [] : Queue PyObj).getTimeout = (.error .empty, Queue.mk 1 []) :=
  ⟨(queue_timeout_unchanged (Queue.mk 1 [objA]) objB (by decide) rfl).1,
   (queue_timeout_unchanged (Queue.mk 1 [objA]) objB (by decide) rfl).2
     (Queue.mk 1 []) rfl⟩

/-- One step of any interleaved history preserves the FIFO invariant:
the successful enqueue history equals the successful dequeue history
followed by the current queue contents. -/
theorem qstep_preserves_fifo {α : Type} (t : QTrace α) (op : QOp α)
    (h : t.deq ++ t.queue.items = t.enq) :
    (qstep t op).deq ++ (qstep t op).queue.items = (qstep t op).enq := by
  cases op with
  | enqueue x =>
    by_cases hf : t.queue.isFull
    · simp [qstep, Queue.putNowait, hf, h]
    · simp only [qstep, Queue.putNowait, hf, Bool.false_eq_true, if_false]
      simp [← h, List.append_assoc]
  | dequeue =>
    obtain ⟨⟨ms, its⟩, enq, deq⟩ := t
    simp only at h
    cases its with
    | nil => simpa [qstep, Queue.getNowait] using h
    | cons v rest =>
      simp only [qstep, Queue.getNowait]
      rw [List.append_assoc]
      simpa using h

/-- The FIFO invariant holds after running any history from any state
satisfying it. -/
theorem foldl_qstep_fifo {α : Type} (ops : List (QOp α)) (t : QTrace α)
    (h : t.deq ++ t.queue.items = t.enq) :
    (ops.foldl qstep t).deq ++ (ops.foldl qstep t).queue.items =
      (ops.foldl qstep t).enq := by
  induction ops generalizing t with
  | nil => exact h
  | cons op rest ih => exact ih (qstep t op) (qstep_preserves_fifo t op h)

/-- C4: for every capacity and every interleaved put/get history run from
an empty queue, the successfully enqueued items equal the successfully
dequeued items followed by the items still in the queue: dequeue order is
the aggregate enqueue order, the dequeue history is an initial segment of
the enqueue history, and the current head is always the oldest remaining
enqueued item. -/
theorem queue_global_fifo {α : Type} (cap : Nat) (ops : List (QOp α)) :
    (runQueue cap ops).deq ++ (runQueue cap ops).queue.items =
      (runQueue cap ops).enq ∧
    (∃ remaining, (runQueue cap ops).enq = (runQueue cap ops).deq ++ remaining) := by
  have h : (runQueue cap ops).deq ++ (runQueue cap ops).queue.items =
      (runQueue cap ops).enq :=
    foldl_qstep_fifo ops ⟨⟨cap, []⟩, [], []⟩ rfl
  exact ⟨h, ⟨(runQueue cap ops).queue.items, h.symm⟩⟩

/-- C10: enqueueing an item into an empty queue stores that very item,
and the get that dequeues it returns the identical object (the same
identity that was put), restoring the queue to its prior state. -/
theorem queue_preserves_identity (q : Queue PyObj) (x : PyObj)
    (h : q.items = []) :
    q.put x = some { q with items := [x] } ∧
    ({ q with items := [x] } : Queue PyObj).get = some (x, q) := by
  obtain ⟨ms, its⟩ := q
  simp only at h
  subst h
  constructor
  · have hns : (Queue.mk ms ([] : List PyObj)).isFull = false := by
      simp only [Queue.isFull, List.length_nil]
      simp only [Bool.and_eq_false_iff, decide_eq_false_iff_not]
      omega
    simp [Queue.put, hns]
  · rfl

/-- Witness instantiating identity preservation on an unbounded empty
queue. -/
theorem queue_preserves_identity_witness :
    (Queue.mk 0 [] : Queue PyObj).put objA = some (Queue.mk 0 [objA]) ∧
    (Queue.mk 0 [objA] : Queue PyObj).get = some (objA, Queue.mk 0 []) :=
  queue_preserves_identity (Queue.mk 0 []) objA rfl

/-- C8: from the Unlocked state, acquire proceeds without blocking,
transitions the mutex to Locked and returns a fresh Guard; a try_acquire
while the mutex is held returns the absent result and changes nothing;
releasing the returned guard succeeds, after which the mutex reports
unlocked and a further try_acquire succeeds. -/
theorem mutex_lifecycle (m : Mutex) (h : m.locked = false) :
    m.acquire = (some ⟨false⟩, ⟨true⟩) ∧
    (Mutex.mk true).tryAcquire = (none, ⟨true⟩) ∧
    Mutex.release ⟨false⟩ ⟨true⟩ = .ok (⟨true⟩, ⟨false⟩) ∧
    (Mutex.mk false).isLocked = false ∧
    (Mutex.mk false).tryAcquire = (some ⟨false⟩, ⟨true⟩) := by
  obtain ⟨b⟩ := m
  simp only at h
  subst h
  exact ⟨rfl, rfl, rfl, rfl, rfl⟩

/-- Witness instantiating the mutex lifecycle on a fresh unlocked
mutex. -/
theorem mutex_lifecycle_witness :
    (Mutex.mk false).acquire = (some ⟨false⟩, ⟨true⟩) ∧
    (Mutex.mk true).tryAcquire = (none, ⟨true⟩) ∧
    Mutex.release ⟨false⟩ ⟨true⟩ = .ok (⟨true⟩, ⟨false⟩) ∧
    (Mutex.mk false).isLocked = false ∧
    (Mutex.mk false).tryAcquire = (some ⟨false⟩, ⟨true⟩) :=
  mutex_lifecycle (Mutex.mk false) rfl

/-- Every single protocol step of the ReadWriteLock preserves the
never-reader-with-writer predicate. -/
theorem rwStep_preserves_inv (l : RWLock) (op : RWOp) (h : rwInv l) :
    rwInv (rwStep l op) := by
  obtain ⟨r, w, ww⟩ := l
  unfold rwInv at h ⊢
  simp only at h
  cases w with
  | true =>
    have hr : r = 0 := by
      by_contra hr
      exact h ⟨Nat.pos_of_ne_zero hr, rfl⟩
    subst hr
    cases op <;>
      simp [rwStep, RWLock.tryAcquireRead, RWLock.tryAcquireWrite,
        RWLock.releaseRead, RWLock.releaseWrite, RWLock.writerArrive,
        RWLock.writerEnter]
  | false =>
    cases op <;>
      simp only [rwStep, RWLock.tryAcquireRead, RWLock.tryAcquireWrite,
        RWLock.releaseRead, RWLock.releaseWrite, RWLock.writerArrive,
        RWLock.writerEnter] <;>
      (try split_ifs) <;>
      simp_all

/-- The never-reader-with-writer predicate holds after any protocol
history from any state satisfying it. -/
theorem foldl_rwStep_inv (ops : List RWOp) (l : RWLock) (h : rwInv l) :
    rwInv (ops.foldl rwStep l) := by
  induction ops generalizing l with
  | nil => exact h
  | cons op rest ih => exact ih (rwStep l op) (rwStep_preserves_inv l op h)

/-- C5: the state predicate forbidding a positive reader count together
with an active writer holds after every sequence of protocol operations
from a state satisfying it; while any read guard is held a non-blocking
write attempt fails; while no writer is active or waiting a further
reader acquires; while a write guard is held a non-blocking read attempt
fails; and once every guard is released the lock reports unlocked. -/
theorem rwlock_contract :
    (∀ (l : RWLock) (ops : List RWOp), rwInv l → rwInv (ops.foldl rwStep l)) ∧
    (∀ l : RWLock, 0 < l.readers → l.tryAcquireWrite = none) ∧
    (∀ l : RWLock, l.writerActive = false → l.waitingWriters = 0 →
      l.tryAcquireRead = some { l with readers := l.readers + 1 }) ∧
    (∀ l : RWLock, l.writerActive = true → l.tryAcquireRead = none) ∧
    (∀ l : RWLock, l.readers = 0 → l.writerActive = false →
      l.isLocked = false) := by
  refine ⟨fun l ops h => foldl_rwStep_inv ops l h, ?_, ?_, ?_, ?_⟩
  · intro l hr
    simp [RWLock.tryAcquireWrite, hr]
  · intro l hw hww
    simp [RWLock.tryAcquireRead, hw, hww]
  · intro l hw
    simp [RWLock.tryAcquireRead, hw]
  · intro l hr hw
    simp [RWLock.isLocked, hr, hw]

/-- Witness instantiating the ReadWriteLock contract: a run of the
protocol from the initial state, a failing write attempt under one
reader, a second reader admitted under one reader, a failing read
attempt under an active writer, and the unlocked report of the idle
state. -/
theorem rwlock_contract_witness :
    rwInv ([RWOp.tryRead, RWOp.tryRead, RWOp.tryWrite, RWOp.relRead,
      RWOp.relRead].foldl rwStep ⟨0, false, 0⟩) ∧
    RWLock.tryAcquireWrite ⟨1, false, 0⟩ = none ∧
    RWLock.tryAcquireRead ⟨1, false, 0⟩ = some ⟨2, false, 0⟩ ∧
    RWLock.tryAcquireRead ⟨0, true, 0⟩ = none ∧
    RWLock.isLocked ⟨0, false, 0⟩ = false :=
  ⟨rwlock_contract.1 ⟨0, false, 0⟩
      [RWOp.tryRead, RWOp.tryRead, RWOp.tryWrite, RWOp.relRead, RWOp.relRead]
      (by decide),
   rwlock_contract.2.1 ⟨1, false, 0⟩ (by decide),
   rwlock_contract.2.2.1 ⟨1, false, 0⟩ rfl rfl,
   rwlock_contract.2.2.2.1 ⟨0, true, 0⟩ rfl,
   rwlock_contract.2.2.2.2 ⟨0, false, 0⟩ rfl rfl⟩

/-- Mutating one store index leaves the structure at every other index
untouched. -/
theorem storeMutate_getD_ne {σ μ : Type} (dflt : σ) (appl : σ → μ → σ)
    (s : List σ) (i j : Nat) (m : μ) (hij : j ≠ i) :
    (storeMutate dflt appl s i m).getD j dflt = s.getD j dflt := by
  unfold storeMutate
  simp [List.getD_eq_getD_get?, List.get?_eq_getElem?,
    List.getElem?_set_ne (Ne.symm hij)]

/-- Running a whole mutation sequence against one store index leaves the
structure at every other index untouched. -/
theorem storeRun_getD_ne {σ μ : Type} (dflt : σ) (appl : σ → μ → σ)
    (i j : Nat) (hij : j ≠ i) (s : List σ) (ms : List μ) :
    (storeRun dflt appl i s ms).getD j dflt = s.getD j dflt := by
  induction ms generalizing s with
  | nil => rfl
  | cons m rest ih =>
    calc (storeRun dflt appl i (storeMutate dflt appl s i m) rest).getD j dflt
        = (storeMutate dflt appl s i m).getD j dflt := ih _
      _ = s.getD j dflt := storeMutate_getD_ne dflt appl s i j m hij

/-- Reading an appended store at the fresh index returns the appended
structure. -/
theorem getD_append_length {σ : Type} (s : List σ) (x dflt : σ) :
    (s ++ [x]).getD s.length dflt = x := by
  induction s with
  | nil => rfl
  | cons a rest ih => exact ih

/-- C2: placing a snapshot of the structure at a source index at a fresh
store index yields a structure holding exactly the entries of the source
at the capture instant; every sequence of mutations applied to the
source leaves the snapshot as captured, and every sequence applied to
the snapshot leaves the source as it was, both for ConcurrentDict
snapshots (copy or pickle round trip) and for ConcurrentSet copies. -/
theorem snapshot_independence (s : List ConcurrentDict) (i : Nat)
    (hi : i < s.length) (ms msSnap : List DictMutation)
    (t : List ConcurrentSet) (j : Nat) (hj : j < t.length)
    (ns nsSnap : List SetMutation) :
    ((s ++ [(s.getD i dictDefault).copy]).getD s.length dictDefault).entries =
      (s.getD i dictDefault).entries ∧
    (storeRun dictDefault applyDictMutation i
        (s ++ [(s.getD i dictDefault).copy]) ms).getD s.length dictDefault =
      (s.getD i dictDefault).copy ∧
    (storeRun dictDefault applyDictMutation s.length
        (s ++ [(s.getD i dictDefault).copy]) msSnap).getD i dictDefault =
      s.getD i dictDefault ∧
    ((t ++ [(t.getD j setDefault).copy]).getD t.length setDefault).elems =
      (t.getD j setDefault).elems ∧
    (storeRun setDefault applySetMutation j
        (t ++ [(t.getD j setDefault).copy]) ns).getD t.length setDefault =
      (t.getD j setDefault).copy ∧
    (storeRun setDefault applySetMutation t.length
        (t ++ [(t.getD j setDefault).copy]) nsSnap).getD j setDefault =
      t.getD j setDefault := by
  have hid : i ≠ s.length := Nat.ne_of_lt hi
  have hjd : j ≠ t.length := Nat.ne_of_lt hj
  refine ⟨?_, ?_, ?_, ?_, ?_, ?_⟩
  · rw [getD_append_length]
    rfl
  · rw [storeRun_getD_ne dictDefault applyDictMutation i s.length hid.symm,
      getD_append_length]
  · rw [storeRun_getD_ne dictDefault applyDictMutation s.length i hid,
      List.getD_append s _ dictDefault i hi]
  · rw [getD_append_length]
    rfl
  · rw [storeRun_getD_ne setDefault applySetMutation j t.length hjd.symm,
      getD_append_length]
  · rw [storeRun_getD_ne setDefault applySetMutation t.length j hjd,
      List.getD_append t _ setDefault j hj]

/-- Witness instantiating snapshot independence: a one-dict store holding
one entry, overwritten in the source after the snapshot, and a one-set
store cleared in the source after the copy. -/
theorem snapshot_independence_witness :
    (([(⟨[(objA, objB)]⟩ : ConcurrentDict)] ++ [((⟨[(objA, objB)]⟩ : ConcurrentDict)).copy]).getD 1
        dictDefault).entries = [(objA, objB)] ∧
    (storeRun dictDefault applyDictMutation 0
        ([(⟨[(objA, objB)]⟩ : ConcurrentDict)] ++ [((⟨[(objA, objB)]⟩ : ConcurrentDict)).copy])
        [DictMutation.setK objA objC]).getD 1 dictDefault =
      ((⟨[(objA, objB)]⟩ : ConcurrentDict)).copy ∧
    (storeRun dictDefault applyDictMutation 1
        ([(⟨[(objA, objB)]⟩ : ConcurrentDict)] ++ [((⟨[(objA, objB)]⟩ : ConcurrentDict)).copy])
        [DictMutation.setK objB objC]).getD 0 dictDefault =
      (⟨[(objA, objB)]⟩ : ConcurrentDict) ∧
    (([(⟨[objA]⟩ : ConcurrentSet)] ++ [((⟨[objA]⟩ : ConcurrentSet)).copy]).getD 1
        setDefault).elems = [objA] ∧
    (storeRun setDefault applySetMutation 0
        ([(⟨[objA]⟩ : ConcurrentSet)] ++ [((⟨[objA]⟩ : ConcurrentSet)).copy])
        [SetMutation.clearS]).getD 1 setDefault =
      ((⟨[objA]⟩ : ConcurrentSet)).copy ∧
    (storeRun setDefault applySetMutation 1
        ([(⟨[objA]⟩ : ConcurrentSet)] ++ [((⟨[objA]⟩ : ConcurrentSet)).copy])
        [SetMutation.addV objB]).getD 0 setDefault =
      (⟨[objA]⟩ : ConcurrentSet) :=
  snapshot_independence [(⟨[(objA, objB)]⟩ : ConcurrentDict)] 0 (by decide)
    [DictMutation.setK objA objC] [DictMutation.setK objB objC]
    [(⟨[objA]⟩ : ConcurrentSet)] 0 (by decide)
    [SetMutation.clearS] [SetMutation.addV objB]

end Syncx
